import Mathlib

/-!
Shallow embedding of `src/wavefront.rs` from the `rustyrenderer` repository:
a Wavefront-OBJ-subset loader (vertex / texture-coordinate / face parsing,
lazy triangle resolution, and the error model), together with theorems about
its behaviour.

Modelling conventions:
* the scalar type of `Vec3f` coordinates is an abstract parameter `F` with an
  abstract float parser `parseF : String → Option F` (the claims never compute
  with the coordinate values, they only store and retrieve them);
* the bound texture `draw::Texture2D` is an abstract parameter `T`;
* Rust panics (out-of-bounds `Vec` indexing, `Option::unwrap` on `None`) are
  modelled by the `Panic` error of an `Except`, or by `Option.none` at the
  top level, and are kept distinct from genuine `Result::Err` values;
* machine integers: `usize` values are `Nat` with explicit wrapping modulo
  `2 ^ 64` exactly where the Rust code can overflow or underflow.
-/

deriving instance DecidableEq for Except

namespace Wavefront

/-- `usize::MAX + 1` on the 64-bit targets the renderer builds for. -/
def usizeW : Nat := 2 ^ 64

/-- Digit-fold helper for `parseUsize`. -/
def parseNatAux : List Char → Nat → Option Nat
  | [], acc => some acc
  | c :: cs, acc =>
    if c.isDigit then parseNatAux cs (acc * 10 + (c.toNat - 48)) else none

/-- Models `str.parse::<usize>()`: decimal digits only, rejecting the empty
string and values that do not fit in `usize`. (Rust also tolerates a leading
`+`, which no input in this development uses.) -/
def parseUsize (s : String) : Option Nat :=
  if s.toList.isEmpty then none
  else
    match parseNatAux s.toList 0 with
    | some n => if n < usizeW then some n else none
    | none => none

/-- Release-build semantics of `n - 1` on `usize`: wraps modulo `2 ^ 64`.
A debug build would panic on underflow at `n = 0`; the wrapping value marks
exactly the same inputs. -/
def usizeSub1 (n : Nat) : Nat := (n + (usizeW - 1)) % usizeW

/-- `math::Vec3f`, as used by `wavefront.rs` (`type Vertex = Vec3f`): three
scalar fields `x`, `y`, `z`. -/
structure Vertex (F : Type) where
  x : F
  y : F
  z : F
deriving Repr, DecidableEq

/-- `struct FaceIndex`: three parallel index sequences, one entry per corner
sub-field actually parsed. -/
structure FaceIndex where
  v_idxs : List Nat
  t_idxs : List Nat
  n_idxs : List Nat
deriving Repr, DecidableEq

/-- `FaceIndex::new()`. -/
def FaceIndex.new : FaceIndex := ⟨[], [], []⟩

/-- `struct Face`: a resolved triangle. The Rust arrays `[Vec3f; 3]` are
modelled as lists that the resolver always builds with three elements. -/
structure Face (F : Type) where
  vertices : List (Vertex F)
  texcoords : List (Vertex F)
deriving Repr, DecidableEq

/-- `struct ParseError(String)`. -/
structure ParseError where
  msg : String
deriving Repr, DecidableEq

/-- `struct Object`: the aggregate store built by parsing, plus the bound
texture (`draw::Texture2D`, abstracted as `T`). -/
structure Object (F T : Type) where
  vertices : List (Vertex F)
  texcoords : List (Vertex F)
  faces : List FaceIndex
  tex : T
deriving Repr, DecidableEq

variable {F T : Type}

/-- Helper for `splitOnChar`, structurally recursive so that concrete inputs
evaluate inside the kernel. -/
def splitOnCharAux (sep : Char) : List Char → List Char → List String
  | [], acc => [String.mk acc.reverse]
  | c :: cs, acc =>
    if c = sep then String.mk acc.reverse :: splitOnCharAux sep cs []
    else splitOnCharAux sep cs (c :: acc)

/-- Rust `s.split(sep)` for a one-character separator: empty pieces are kept,
and the empty string yields the single piece `""`. -/
def splitOnChar (sep : Char) (s : String) : List String :=
  splitOnCharAux sep s.toList []

/-- One slash sub-field of a face corner: `try!(idx.parse::<usize>()) - 1`.
The message is the `Display` text of Rust's `ParseIntError` for a bad digit. -/
def parseIdx (s : String) : Except ParseError Nat :=
  match parseUsize s with
  | some n => .ok (usizeSub1 n)
  | none => .error ⟨"invalid digit found in string"⟩

/-- One face corner of `Object::add_face`: the loop
`for (vec, idx) in [&mut f.v_idxs, &mut f.t_idxs, &mut f.n_idxs].iter_mut().zip(n.split("/"))`
unrolled. The `zip` stops at the shorter side, so a corner with one sub-field
fills only `v_idxs`, one with two fills `v_idxs` and `t_idxs`, and sub-fields
beyond the third are ignored without being parsed. -/
def addCorner (fi : FaceIndex) (c : String) : Except ParseError FaceIndex :=
  match splitOnChar '/' c with
  | [] => .ok fi
  | [a] =>
    match parseIdx a with
    | .error e => .error e
    | .ok i => .ok { fi with v_idxs := fi.v_idxs ++ [i] }
  | [a, b] =>
    match parseIdx a with
    | .error e => .error e
    | .ok i =>
      match parseIdx b with
      | .error e => .error e
      | .ok j => .ok { fi with v_idxs := fi.v_idxs ++ [i], t_idxs := fi.t_idxs ++ [j] }
  | a :: b :: c2 :: _ =>
    match parseIdx a with
    | .error e => .error e
    | .ok i =>
      match parseIdx b with
      | .error e => .error e
      | .ok j =>
        match parseIdx c2 with
        | .error e => .error e
        | .ok k => .ok { fi with v_idxs := fi.v_idxs ++ [i], t_idxs := fi.t_idxs ++ [j],
                                 n_idxs := fi.n_idxs ++ [k] }

/-- The outer `for n in p` loop of `Object::add_face`, folding the three
corners into one `FaceIndex`; the first sub-field error aborts the loop. -/
def addCorners : FaceIndex → List String → Except ParseError FaceIndex
  | fi, [] => .ok fi
  | fi, c :: cs =>
    match addCorner fi c with
    | .error e => .error e
    | .ok fi2 => addCorners fi2 cs

/-- `Object::add_face`. The state-passing result pairs the (possibly updated)
object with `none` on success or `some e` on a parse error; a failed call
leaves the object exactly as it was, because the Rust code pushes the local
`FaceIndex` into `self.faces` only after every sub-field parsed. -/
def Object.add_face (o : Object F T) (p : List String) :
    Object F T × Option ParseError :=
  match p with
  | [c1, c2, c3] =>
    match addCorners FaceIndex.new [c1, c2, c3] with
    | .error e => (o, some e)
    | .ok fi => ({ o with faces := o.faces ++ [fi] }, none)
  | _ => (o, some ⟨"Bad vertex line"⟩)

/-- `Object::add_vertex`: requires exactly 3 tokens, each parsing as a float;
the three `try!`s fire in field order `x`, `y`, `z`, before the single `push`.
The error message on a bad float models `ParseFloatError`'s `Display` text. -/
def Object.add_vertex (parseF : String → Option F) (o : Object F T)
    (p : List String) : Object F T × Option ParseError :=
  match p with
  | [s1, s2, s3] =>
    match parseF s1 with
    | none => (o, some ⟨"invalid float literal"⟩)
    | some x =>
      match parseF s2 with
      | none => (o, some ⟨"invalid float literal"⟩)
      | some y =>
        match parseF s3 with
        | none => (o, some ⟨"invalid float literal"⟩)
        | some z => ({ o with vertices := o.vertices ++ [⟨x, y, z⟩] }, none)
  | _ => (o, some ⟨"Bad line"⟩)

/-- `Object::add_texcoord`, structurally identical to `add_vertex` but
appending to `texcoords`. -/
def Object.add_texcoord (parseF : String → Option F) (o : Object F T)
    (p : List String) : Object F T × Option ParseError :=
  match p with
  | [s1, s2, s3] =>
    match parseF s1 with
    | none => (o, some ⟨"invalid float literal"⟩)
    | some x =>
      match parseF s2 with
      | none => (o, some ⟨"invalid float literal"⟩)
      | some y =>
        match parseF s3 with
        | none => (o, some ⟨"invalid float literal"⟩)
        | some z => ({ o with texcoords := o.texcoords ++ [⟨x, y, z⟩] }, none)
  | _ => (o, some ⟨"Bad texcoord line"⟩)

/-- Helper for `tokenize`: split on whitespace runs, dropping empty tokens,
carrying the current (reversed) token. -/
def tokenizeAux : List Char → List Char → List String
  | [], [] => []
  | [], acc => [String.mk acc.reverse]
  | c :: cs, acc =>
    if c.isWhitespace then
      match acc with
      | [] => tokenizeAux cs []
      | _ => String.mk acc.reverse :: tokenizeAux cs []
    else tokenizeAux cs (c :: acc)

/-- `l.split_whitespace()`: maximal runs of non-whitespace characters.
(Rust uses the full Unicode notion of whitespace; the ASCII subset suffices
for every input considered here.) -/
def tokenize (l : String) : List String :=
  tokenizeAux l.toList []

/-- `Object::parse_line`: tokenize, then dispatch on the first token in the
order of the Rust `match` arms (`#`, `f`, `v`, `vn`, `vt`, wildcard).
Comment, blank, `vn` and unknown lines are no-ops that only log. -/
def Object.parse_line (parseF : String → Option F) (o : Object F T)
    (l : String) : Object F T × Option ParseError :=
  match tokenize l with
  | [] => (o, none)
  | t :: rest =>
    if t = "#" then (o, none)
    else if t = "f" then o.add_face rest
    else if t = "v" then o.add_vertex parseF rest
    else if t = "vn" then (o, none)
    else if t = "vt" then o.add_texcoord parseF rest
    else (o, none)

/-- A Rust panic during triangle resolution: the unchecked `Vec` indexing in
`Object::vertex` / `Object::texcoord` and the `f_idx.v_idxs[k]` accesses in
`ObjectIter::next`. A `.error Panic.indexOutOfBounds` marks an abrupt process
failure, not a recoverable `Result::Err` value of the Rust API. -/
inductive Panic where
  | indexOutOfBounds
deriving Repr, DecidableEq

/-- Rust `Vec` indexing `l[i]` on an index vector: panics when out of range. -/
def listIdx (l : List Nat) (i : Nat) : Except Panic Nat :=
  match l.get? i with
  | some x => .ok x
  | none => .error .indexOutOfBounds

/-- `Object::vertex`: `self.vertices[idx].clone()`, panicking out of bounds. -/
def Object.vertex (o : Object F T) (idx : Nat) : Except Panic (Vertex F) :=
  match o.vertices.get? idx with
  | some v => .ok v
  | none => .error .indexOutOfBounds

/-- `Object::texcoord`: `self.texcoords[idx].clone()`, panicking out of
bounds. -/
def Object.texcoord (o : Object F T) (idx : Nat) : Except Panic (Vertex F) :=
  match o.texcoords.get? idx with
  | some v => .ok v
  | none => .error .indexOutOfBounds

/-- The body of `ObjectIter::next` that builds a `Face` from one stored
`FaceIndex`, in the Rust evaluation order: the three vertex lookups, then the
three texcoord lookups, each preceded by the index-vector access. -/
def Object.resolveFace (o : Object F T) (fi : FaceIndex) :
    Except Panic (Face F) :=
  match listIdx fi.v_idxs 0 with
  | .error p => .error p
  | .ok i0 =>
    match o.vertex i0 with
    | .error p => .error p
    | .ok v0 =>
      match listIdx fi.v_idxs 1 with
      | .error p => .error p
      | .ok i1 =>
        match o.vertex i1 with
        | .error p => .error p
        | .ok v1 =>
          match listIdx fi.v_idxs 2 with
          | .error p => .error p
          | .ok i2 =>
            match o.vertex i2 with
            | .error p => .error p
            | .ok v2 =>
              match listIdx fi.t_idxs 0 with
              | .error p => .error p
              | .ok j0 =>
                match o.texcoord j0 with
                | .error p => .error p
                | .ok t0 =>
                  match listIdx fi.t_idxs 1 with
                  | .error p => .error p
                  | .ok j1 =>
                    match o.texcoord j1 with
                    | .error p => .error p
                    | .ok t1 =>
                      match listIdx fi.t_idxs 2 with
                      | .error p => .error p
                      | .ok j2 =>
                        match o.texcoord j2 with
                        | .error p => .error p
                        | .ok t2 =>
                          .ok { vertices := [v0, v1, v2], texcoords := [t0, t1, t2] }

/-- `struct ObjectIter`: a borrowed object plus the cursor `idx`. -/
structure ObjectIter (F T : Type) where
  obj : Object F T
  idx : Nat
deriving Repr, DecidableEq

/-- `ObjectIter::next`: `None` once `idx` reaches `faces.len()`, otherwise the
resolution of `faces[idx]` together with the advanced iterator; a resolution
panic aborts iteration abruptly. -/
def ObjectIter.next (it : ObjectIter F T) :
    Except Panic (Option (Face F × ObjectIter F T)) :=
  match it.obj.faces.get? it.idx with
  | none => .ok none
  | some fi => (it.obj.resolveFace fi).map (fun f => some (f, ⟨it.obj, it.idx + 1⟩))

/-- `(&obj).into_iter()`. -/
def Object.iter (o : Object F T) : ObjectIter F T := ⟨o, 0⟩

/-- Driving `ObjectIter::next` to exhaustion, collecting every yielded `Face`
in order; a panic during any step aborts the whole iteration. The leading
guard is the `if self.idx >= self.obj.faces.len()` check of
`ObjectIter::next`, so the inner `none` case is unreachable. -/
def ObjectIter.drain (it : ObjectIter F T) : Except Panic (List (Face F)) :=
  if _h : it.obj.faces.length ≤ it.idx then .ok []
  else
    match it.obj.faces.get? it.idx with
    | none => .ok []
    | some fi =>
      match it.obj.resolveFace fi with
      | .error p => .error p
      | .ok f => (ObjectIter.drain ⟨it.obj, it.idx + 1⟩).map (fun fs => f :: fs)
termination_by it.obj.faces.length - it.idx
decreasing_by omega

/-- A source line routed to the face resolver: first token `f`. -/
def isFaceLine (l : String) : Bool :=
  match tokenize l with
  | t :: _ => decide (t = "f")
  | [] => false

/-- Fuel-bounded model of `impl fmt::Display for ParseError`, whose body is
`write!(f, "Parse Error: {}", self)` — it formats `self` with itself, with no
base case. `none` models the resulting non-termination (stack overflow); with
any finite fuel the formatting never produces a string. -/
def ParseError.displayFuel : Nat → ParseError → Option String
  | 0, _ => none
  | nFuel + 1, e => (ParseError.displayFuel nFuel e).map (fun s => "Parse Error: " ++ s)

/-- The line loop of `Object::read`: lines are numbered from 1
(`enumerate().map(|(a,b)| (a+1,b))`); a parse error is wrapped by
`ParseError(format!("{} at line {}", e, line_number))`, whose `{}` on `e`
invokes the divergent `Display` above, so the wrapping is fuel-bounded and
`none` models the process aborting instead of returning. Per-line I/O errors
are external and not modelled. -/
def readLinesAux (parseF : String → Option F) (fuel : Nat) :
    Object F T → Nat → List String → Option (Except ParseError (Object F T))
  | o, _, [] => some (.ok o)
  | o, lineNumber, l :: ls =>
    match Object.parse_line parseF o l with
    | (o2, none) => readLinesAux parseF fuel o2 (lineNumber + 1) ls
    | (_, some e) =>
      (ParseError.displayFuel fuel e).map
        (fun s => .error ⟨s ++ " at line " ++ toString lineNumber⟩)

/-- The parsing phase of `Object::read` over the source file's lines, starting
from the empty object holding the already-loaded texture `t`. -/
def readLines (parseF : String → Option F) (fuel : Nat) (t : T)
    (lines : List String) : Option (Except ParseError (Object F T)) :=
  readLinesAux parseF fuel ⟨[], [], [], t⟩ 1 lines

/-- A filesystem path, modelling `std::path::PathBuf` as its parent components
plus the final file-name component, which is how `Object::read` manipulates
it (`file_stem`, `set_file_name`, `set_extension`). -/
structure FsPath where
  dir : List String
  name : String
deriving Repr, DecidableEq

/-- `Path::file_stem` on a file name: `none` for an empty name, the whole
name when it holds no `.` or when it is a lone `.foo`-style hidden file,
otherwise the portion before the final `.`. -/
def stemOfName (n : String) : Option String :=
  if n = "" then none
  else
    let parts := splitOnChar '.' n
    if parts.length ≤ 1 then some n
    else if parts.headD "" = "" ∧ parts.length = 2 then some n
    else some (String.intercalate "." parts.dropLast)

/-- `PathBuf::set_file_name`. -/
def FsPath.setFileName (p : FsPath) (n : String) : FsPath := { p with name := n }

/-- `PathBuf::set_extension` with a non-empty extension: replaces (or appends)
the extension after the file stem; a path with no file stem is unchanged. -/
def FsPath.setExtension (p : FsPath) (ext : String) : FsPath :=
  match stemOfName p.name with
  | none => p
  | some stem => { p with name := stem ++ "." ++ ext }

/-- The texture-path derivation at the top of `Object::read`:
`pb.set_file_name(p.file_stem().unwrap().to_string_lossy().to_string() + "_diffuse"); pb.set_extension("tga");`.
`none` models the `unwrap` panic on a path with no file stem. -/
def texturePath (p : FsPath) : Option FsPath :=
  (stemOfName p.name).map
    (fun stem => (p.setFileName (stem ++ "_diffuse")).setExtension "tga")

/-- `enum Error`: the tagged union of parse, I/O and image-decode failures.
The image error payload is abstract (`E`); I/O errors carry only a message
model since file I/O itself is external. -/
inductive WfError (E : Type) where
  | parseError : ParseError → WfError E
  | ioError : String → WfError E
  | imagefmtError : E → WfError E
deriving Repr, DecidableEq

/-- `Object::read`, with `draw::Texture2D::read` abstracted as the external
collaborator `textureLoad` (modelled from the spec: the texture loader is a
separate crate with contract `load(path) -> Result<Texture, ImageError>`).
Steps in source order: derive the texture path (panicking via `unwrap` if the
path has no stem), load the texture eagerly (its failure is a typed
`imagefmtError` failing the whole load), then run the line loop. The outer
`Option` is `none` exactly when the Rust process would abort rather than
return. -/
def Object.read (parseF : String → Option F) (textureLoad : FsPath → Except E T)
    (fuel : Nat) (p : FsPath) (lines : List String) :
    Option (Except (WfError E) (Object F T)) :=
  match texturePath p with
  | none => none
  | some tp =>
    match textureLoad tp with
    | .error e => some (.error (.imagefmtError e))
    | .ok t =>
      match readLines parseF fuel t lines with
      | none => none
      | some (.error pe) => some (.error (.parseError pe))
      | some (.ok o) => some (.ok o)

/-- The spec's §8 scenario input file. -/
def sceneLines : List String :=
  ["v 0 0 0", "v 1 0 0", "v 0 1 0", "vt 0 0 0", "vt 1 0 0", "vt 0 1 0", "f 1/1 2/2 3/3"]

/-- The object the scenario parses to (over `F := Nat`, `T := Unit`). -/
def sceneObj : Object Nat Unit :=
  ⟨[⟨0, 0, 0⟩, ⟨1, 0, 0⟩, ⟨0, 1, 0⟩], [⟨0, 0, 0⟩, ⟨1, 0, 0⟩, ⟨0, 1, 0⟩],
   [⟨[0, 1, 2], [0, 1, 2], []⟩], ()⟩

/-- The scenario object just before its `f` line is parsed. -/
def preObj : Object Nat Unit :=
  ⟨[⟨0, 0, 0⟩, ⟨1, 0, 0⟩, ⟨0, 1, 0⟩], [⟨0, 0, 0⟩, ⟨1, 0, 0⟩, ⟨0, 1, 0⟩], [], ()⟩

/-! ### Helper lemmas -/

theorem parseUsize_lt {s : String} {n : Nat} (h : parseUsize s = some n) :
    n < usizeW := by
  unfold parseUsize at h
  split at h
  · cases h
  · split at h
    · split at h
      · rename_i hlt
        cases h
        exact hlt
      · cases h
    · cases h

theorem usizeSub1_eq {n : Nat} (h1 : 1 ≤ n) (h2 : n < usizeW) :
    usizeSub1 n = n - 1 := by
  have hW : usizeW = 2 ^ 64 := rfl
  simp only [usizeSub1, hW] at h2 ⊢
  omega

theorem displayFuel_eq_none (fuel : Nat) (e : ParseError) :
    ParseError.displayFuel fuel e = none := by
  induction fuel with
  | zero => rfl
  | succ n ih => simp [ParseError.displayFuel, ih]

theorem add_vertex_malformed (parseF : String → Option F) (o : Object F T)
    (p : List String) (h : p.length ≠ 3 ∨ ∃ s ∈ p, parseF s = none) :
    ∃ e, Object.add_vertex parseF o p = (o, some e) := by
  rcases p with _ | ⟨a, _ | ⟨b, _ | ⟨c, _ | ⟨d, p'⟩⟩⟩⟩
  · exact ⟨⟨"Bad line"⟩, by simp [Object.add_vertex]⟩
  · exact ⟨⟨"Bad line"⟩, by simp [Object.add_vertex]⟩
  · exact ⟨⟨"Bad line"⟩, by simp [Object.add_vertex]⟩
  · rcases h with h | ⟨s, hs, hnone⟩
    · simp at h
    · rcases hpa : parseF a with _ | xa
      · exact ⟨⟨"invalid float literal"⟩, by simp [Object.add_vertex, hpa]⟩
      · rcases hpb : parseF b with _ | xb
        · exact ⟨⟨"invalid float literal"⟩, by simp [Object.add_vertex, hpa, hpb]⟩
        · rcases hpc : parseF c with _ | xc
          · exact ⟨⟨"invalid float literal"⟩, by simp [Object.add_vertex, hpa, hpb, hpc]⟩
          · exfalso
            simp only [List.mem_cons, List.not_mem_nil, or_false] at hs
            rcases hs with rfl | rfl | rfl
            · rw [hpa] at hnone; cases hnone
            · rw [hpb] at hnone; cases hnone
            · rw [hpc] at hnone; cases hnone
  · exact ⟨⟨"Bad line"⟩, by simp [Object.add_vertex]⟩

theorem add_texcoord_malformed (parseF : String → Option F) (o : Object F T)
    (p : List String) (h : p.length ≠ 3 ∨ ∃ s ∈ p, parseF s = none) :
    ∃ e, Object.add_texcoord parseF o p = (o, some e) := by
  rcases p with _ | ⟨a, _ | ⟨b, _ | ⟨c, _ | ⟨d, p'⟩⟩⟩⟩
  · exact ⟨⟨"Bad texcoord line"⟩, by simp [Object.add_texcoord]⟩
  · exact ⟨⟨"Bad texcoord line"⟩, by simp [Object.add_texcoord]⟩
  · exact ⟨⟨"Bad texcoord line"⟩, by simp [Object.add_texcoord]⟩
  · rcases h with h | ⟨s, hs, hnone⟩
    · simp at h
    · rcases hpa : parseF a with _ | xa
      · exact ⟨⟨"invalid float literal"⟩, by simp [Object.add_texcoord, hpa]⟩
      · rcases hpb : parseF b with _ | xb
        · exact ⟨⟨"invalid float literal"⟩, by simp [Object.add_texcoord, hpa, hpb]⟩
        · rcases hpc : parseF c with _ | xc
          · exact ⟨⟨"invalid float literal"⟩, by simp [Object.add_texcoord, hpa, hpb, hpc]⟩
          · exfalso
            simp only [List.mem_cons, List.not_mem_nil, or_false] at hs
            rcases hs with rfl | rfl | rfl
            · rw [hpa] at hnone; cases hnone
            · rw [hpb] at hnone; cases hnone
            · rw [hpc] at hnone; cases hnone
  · exact ⟨⟨"Bad texcoord line"⟩, by simp [Object.add_texcoord]⟩

theorem splitOnCharAux_ne_nil (sep : Char) (cs acc : List Char) :
    splitOnCharAux sep cs acc ≠ [] := by
  induction cs generalizing acc with
  | nil => simp [splitOnCharAux]
  | cons c cs ih =>
    by_cases hc : c = sep <;> simp [splitOnCharAux, hc, ih]

theorem splitOnChar_ne_nil (sep : Char) (s : String) :
    splitOnChar sep s ≠ [] :=
  splitOnCharAux_ne_nil sep s.toList []

theorem addCorner_lengths {fi fi2 : FaceIndex} {c : String}
    (h : addCorner fi c = .ok fi2) :
    fi2.v_idxs.length = fi.v_idxs.length + 1
    ∧ fi2.t_idxs.length = fi.t_idxs.length +
        (if 2 ≤ (splitOnChar '/' c).length then 1 else 0)
    ∧ fi2.n_idxs.length = fi.n_idxs.length +
        (if 3 ≤ (splitOnChar '/' c).length then 1 else 0) := by
  unfold addCorner at h
  rcases hsp : splitOnChar '/' c with _ | ⟨a, _ | ⟨b, _ | ⟨c2, rest⟩⟩⟩ <;>
    simp only [hsp] at h
  · exact absurd hsp (splitOnChar_ne_nil '/' c)
  · rcases hpa : parseIdx a with e | i <;> simp only [hpa] at h
    · cases h
    · cases h
      simp [hsp]
  · rcases hpa : parseIdx a with e | i <;> simp only [hpa] at h
    · cases h
    · rcases hpb : parseIdx b with e | j <;> simp only [hpb] at h
      · cases h
      · cases h
        simp [hsp]
  · rcases hpa : parseIdx a with e | i <;> simp only [hpa] at h
    · cases h
    · rcases hpb : parseIdx b with e | j <;> simp only [hpb] at h
      · cases h
      · rcases hpc : parseIdx c2 with e | k <;> simp only [hpc] at h
        · cases h
        · cases h
          simp [hsp]

theorem addCorners3_ok {c1 c2 c3 : String} {fi : FaceIndex}
    (h : addCorners FaceIndex.new [c1, c2, c3] = .ok fi) :
    ∃ fi1 fi2, addCorner FaceIndex.new c1 = .ok fi1 ∧ addCorner fi1 c2 = .ok fi2 ∧
      addCorner fi2 c3 = .ok fi := by
  simp only [addCorners] at h
  rcases h1 : addCorner FaceIndex.new c1 with e | fi1 <;> simp only [h1] at h
  · cases h
  · rcases h2 : addCorner fi1 c2 with e | fi2 <;> simp only [h2] at h
    · cases h
    · rcases h3 : addCorner fi2 c3 with e | fi3 <;> simp only [h3] at h
      · cases h
      · cases h
        exact ⟨fi1, fi2, rfl, h2, h3⟩

theorem add_face_wrong_count (o : Object F T) (p : List String)
    (h : p.length ≠ 3) :
    Object.add_face o p = (o, some ⟨"Bad vertex line"⟩) := by
  rcases p with _ | ⟨a, _ | ⟨b, _ | ⟨c, _ | ⟨d, p'⟩⟩⟩⟩ <;>
    first
    | rfl
    | (exfalso; exact h (by rfl))

theorem drain_stop (o : Object F T) (k : Nat) (h : o.faces.get? k = none) :
    ObjectIter.drain (⟨o, k⟩ : ObjectIter F T) = .ok [] := by
  rw [ObjectIter.drain]
  simp [List.get?_eq_none.mp h]

theorem drain_step (o : Object F T) (k : Nat) (fi : FaceIndex) (f : Face F)
    (hk : o.faces.get? k = some fi) (hres : o.resolveFace fi = .ok f) :
    ObjectIter.drain (⟨o, k⟩ : ObjectIter F T) =
      (ObjectIter.drain (⟨o, k + 1⟩ : ObjectIter F T)).map (fun fs => f :: fs) := by
  have hlt : k < o.faces.length := by
    by_contra hge
    rw [List.get?_eq_none.mpr (Nat.le_of_not_lt hge)] at hk
    cases hk
  rw [ObjectIter.drain]
  have hk2 := hk
  simp only [List.get?_eq_getElem?] at hk2
  simp [Nat.not_le.mpr hlt, hk2, hres]

theorem drain_panic (o : Object F T) (k : Nat) (fi : FaceIndex) (p : Panic)
    (hk : o.faces.get? k = some fi) (hres : o.resolveFace fi = .error p) :
    ObjectIter.drain (⟨o, k⟩ : ObjectIter F T) = .error p := by
  have hlt : k < o.faces.length := by
    by_contra hge
    rw [List.get?_eq_none.mpr (Nat.le_of_not_lt hge)] at hk
    cases hk
  rw [ObjectIter.drain]
  have hk2 := hk
  simp only [List.get?_eq_getElem?] at hk2
  simp [Nat.not_le.mpr hlt, hk2, hres]

theorem add_face_ok_faces (o o2 : Object F T) (p : List String)
    (h : Object.add_face o p = (o2, none)) :
    ∃ fi, o2.faces = o.faces ++ [fi] := by
  unfold Object.add_face at h
  rcases p with _ | ⟨a, _ | ⟨b, _ | ⟨c, _ | ⟨d, p'⟩⟩⟩⟩ <;> simp only at h
  · cases h
  · cases h
  · cases h
  · rcases hC : addCorners FaceIndex.new [a, b, c] with e | fi <;> simp only [hC] at h
    · cases h
    · obtain ⟨h1, -⟩ := Prod.mk.injEq .. ▸ h
      exact ⟨fi, by rw [← h1]⟩
  · cases h

theorem add_vertex_ok_faces (parseF : String → Option F) (o o2 : Object F T)
    (p : List String) (h : Object.add_vertex parseF o p = (o2, none)) :
    o2.faces = o.faces := by
  unfold Object.add_vertex at h
  rcases p with _ | ⟨a, _ | ⟨b, _ | ⟨c, _ | ⟨d, p'⟩⟩⟩⟩ <;> simp only at h
  · cases h
  · cases h
  · cases h
  · rcases hpa : parseF a with _ | x <;> simp only [hpa] at h
    · cases h
    · rcases hpb : parseF b with _ | y <;> simp only [hpb] at h
      · cases h
      · rcases hpc : parseF c with _ | z <;> simp only [hpc] at h
        · cases h
        · obtain ⟨h1, -⟩ := Prod.mk.injEq .. ▸ h
          rw [← h1]
  · cases h

theorem add_texcoord_ok_faces (parseF : String → Option F) (o o2 : Object F T)
    (p : List String) (h : Object.add_texcoord parseF o p = (o2, none)) :
    o2.faces = o.faces := by
  unfold Object.add_texcoord at h
  rcases p with _ | ⟨a, _ | ⟨b, _ | ⟨c, _ | ⟨d, p'⟩⟩⟩⟩ <;> simp only at h
  · cases h
  · cases h
  · cases h
  · rcases hpa : parseF a with _ | x <;> simp only [hpa] at h
    · cases h
    · rcases hpb : parseF b with _ | y <;> simp only [hpb] at h
      · cases h
      · rcases hpc : parseF c with _ | z <;> simp only [hpc] at h
        · cases h
        · obtain ⟨h1, -⟩ := Prod.mk.injEq .. ▸ h
          rw [← h1]
  · cases h

theorem parse_line_faces (parseF : String → Option F) (o o2 : Object F T) (l : String)
    (h : Object.parse_line parseF o l = (o2, none)) :
    o2.faces.length = o.faces.length + (if isFaceLine l then 1 else 0) := by
  unfold Object.parse_line at h
  unfold isFaceLine
  rcases htok : tokenize l with _ | ⟨t, rest⟩ <;> simp only [htok] at h ⊢
  · cases h; simp
  · by_cases h1 : t = "#"
    · subst h1
      simp only [if_pos rfl] at h
      cases h
      simp
    · rw [if_neg h1] at h
      by_cases h2 : t = "f"
      · subst h2
        rw [if_pos rfl] at h
        obtain ⟨fi, hfi⟩ := add_face_ok_faces o o2 rest h
        simp [hfi]
      · rw [if_neg h2] at h
        simp only [h2, decide_eq_true_eq, if_neg]
        by_cases h3 : t = "v"
        · subst h3
          rw [if_pos rfl] at h
          rw [add_vertex_ok_faces parseF o o2 rest h]
          simp
        · rw [if_neg h3] at h
          by_cases h4 : t = "vn"
          · subst h4
            rw [if_pos rfl] at h
            cases h
            simp
          · rw [if_neg h4] at h
            by_cases h5 : t = "vt"
            · subst h5
              rw [if_pos rfl] at h
              rw [add_texcoord_ok_faces parseF o o2 rest h]
              simp
            · rw [if_neg h5] at h
              cases h
              simp

theorem readLinesAux_faces (parseF : String → Option F) (fuel : Nat) :
    ∀ (lines : List String) (o o2 : Object F T) (n : Nat),
      readLinesAux parseF fuel o n lines = some (.ok o2) →
      o2.faces.length = o.faces.length + (lines.countP isFaceLine) := by
  intro lines
  induction lines with
  | nil =>
    intro o o2 n h
    unfold readLinesAux at h
    simp only [Option.some.injEq, Except.ok.injEq] at h
    subst h
    simp
  | cons l ls ih =>
    intro o o2 n h
    unfold readLinesAux at h
    rcases hpl : Object.parse_line parseF o l with ⟨omid, oe⟩
    rcases oe with _ | e
    · simp only [hpl] at h
      have hrec := ih omid o2 (n + 1) h
      have hf := parse_line_faces parseF o omid l hpl
      rw [List.countP_cons, hrec, hf]
      by_cases hfl : isFaceLine l <;> simp [hfl] <;> omega
    · simp only [hpl, displayFuel_eq_none, Option.map_none'] at h
      cases h

theorem drain_total (o : Object F T)
    (hres : ∀ fi ∈ o.faces, ∃ f, Object.resolveFace o fi = .ok f) :
    ∀ n k, o.faces.length - k = n →
      ∃ fs, ObjectIter.drain (⟨o, k⟩ : ObjectIter F T) = .ok fs
        ∧ fs.length = o.faces.length - k
        ∧ ∀ j fi, o.faces.get? (k + j) = some fi →
            ∃ f, fs.get? j = some f ∧ Object.resolveFace o fi = .ok f := by
  intro n
  induction n with
  | zero =>
    intro k hk
    have hnone : o.faces.get? k = none := List.get?_eq_none.mpr (by omega)
    refine ⟨[], drain_stop o k hnone, by simp; omega, ?_⟩
    intro j fi hj
    exfalso
    have : o.faces.get? (k + j) = none := List.get?_eq_none.mpr (by omega)
    rw [this] at hj
    cases hj
  | succ n ih =>
    intro k hk
    have hklt : k < o.faces.length := by omega
    rcases hfk : o.faces.get? k with _ | fi
    · rw [List.get?_eq_none] at hfk
      omega
    · obtain ⟨f, hf⟩ := hres fi (List.get?_mem hfk)
      obtain ⟨fs, hd, hlen, hpt⟩ := ih (k + 1) (by omega)
      refine ⟨f :: fs, ?_, by simp [hlen]; omega, ?_⟩
      · rw [drain_step o k fi f hfk hf, hd]
        rfl
      · intro j fi' hj
        cases j with
        | zero =>
          rw [Nat.add_zero, hfk] at hj
          cases hj
          exact ⟨f, rfl, hf⟩
        | succ j =>
          obtain ⟨f', h1, h2⟩ := hpt j fi' (by rw [← hj]; ring_nf)
          exact ⟨f', by simpa using h1, h2⟩

theorem mk_toList (s : String) : String.mk s.toList = s := rfl

theorem toList_append (s t : String) : (s ++ t).toList = s.toList ++ t.toList := rfl

theorem intercalate_singleton (s x : String) : String.intercalate s [x] = x := rfl

theorem splitOnCharAux_no_sep (sep : Char) (cs : List Char) :
    ∀ acc, sep ∉ cs → splitOnCharAux sep cs acc = [String.mk (acc.reverse ++ cs)] := by
  induction cs with
  | nil => intro acc h; simp [splitOnCharAux]
  | cons c cs ih =>
    intro acc h
    simp only [List.mem_cons, not_or] at h
    obtain ⟨h1, h2⟩ := h
    have h1' : ¬(c = sep) := fun hh => h1 hh.symm
    simp [splitOnCharAux, h1', ih (c :: acc) h2, List.append_assoc]

theorem splitOnCharAux_sep (sep : Char) (cs ds : List Char) :
    ∀ acc, sep ∉ cs → splitOnCharAux sep (cs ++ sep :: ds) acc =
      String.mk (acc.reverse ++ cs) :: splitOnCharAux sep ds [] := by
  induction cs with
  | nil => intro acc h; simp [splitOnCharAux]
  | cons c cs ih =>
    intro acc h
    simp only [List.mem_cons, not_or] at h
    obtain ⟨h1, h2⟩ := h
    have h1' : ¬(c = sep) := fun hh => h1 hh.symm
    simp [splitOnCharAux, h1', ih (c :: acc) h2, List.append_assoc]

theorem stemOfName_stem_ext (stem ext : String) (hstem : stem ≠ "")
    (h1 : '.' ∉ stem.toList) (h2 : '.' ∉ ext.toList) :
    stemOfName (stem ++ "." ++ ext) = some stem := by
  have hdata : (stem ++ "." ++ ext).toList = stem.toList ++ '.' :: ext.toList := by
    have hdot : ".".toList = ['.'] := rfl
    rw [toList_append, toList_append, hdot, List.append_assoc]
    rfl
  have hsplit : splitOnChar '.' (stem ++ "." ++ ext) = [stem, String.mk ext.toList] := by
    unfold splitOnChar
    rw [hdata, splitOnCharAux_sep '.' _ _ [] h1, splitOnCharAux_no_sep '.' _ [] h2]
    simp [mk_toList]
  have hne : (stem ++ "." ++ ext) ≠ "" := by
    intro hh
    have := congrArg String.toList hh
    rw [hdata] at this
    simp at this
  unfold stemOfName
  rw [if_neg hne]
  simp only [hsplit]
  have hlen : ¬([stem, String.mk ext.toList].length ≤ 1) := by simp
  rw [if_neg hlen]
  have hhead : ¬([stem, String.mk ext.toList].headD "" = "" ∧
      [stem, String.mk ext.toList].length = 2) := by
    intro ⟨ha, _⟩
    exact hstem (by simpa using ha)
  rw [if_neg hhead]
  simp [intercalate_singleton]

theorem stemOfName_no_dot (n : String) (hne : n ≠ "") (h : '.' ∉ n.toList) :
    stemOfName n = some n := by
  have hsplit : splitOnChar '.' n = [n] := by
    unfold splitOnChar
    rw [splitOnCharAux_no_sep '.' _ [] h]
    simp [mk_toList]
  unfold stemOfName
  rw [if_neg hne]
  simp [hsplit]

theorem listIdx_ok {l : List Nat} {k i : Nat} (h : listIdx l k = .ok i) :
    l.get? k = some i := by
  unfold listIdx at h
  split at h
  · rename_i hx
    cases h
    exact hx
  · cases h

theorem vertex_ok {o : Object F T} {i : Nat} {v : Vertex F}
    (h : o.vertex i = .ok v) : i < o.vertices.length := by
  unfold Object.vertex at h
  split at h
  · rename_i hx
    by_contra hge
    rw [List.get?_eq_none.mpr (Nat.le_of_not_lt hge)] at hx
    cases hx
  · cases h

theorem texcoord_ok {o : Object F T} {j : Nat} {v : Vertex F}
    (h : o.texcoord j = .ok v) : j < o.texcoords.length := by
  unfold Object.texcoord at h
  split at h
  · rename_i hx
    by_contra hge
    rw [List.get?_eq_none.mpr (Nat.le_of_not_lt hge)] at hx
    cases hx
  · cases h

theorem get?_some_lt {l : List Nat} {k i : Nat} (h : l.get? k = some i) :
    k < l.length := by
  by_contra hge
  rw [List.get?_eq_none.mpr (Nat.le_of_not_lt hge)] at h
  cases h

theorem resolveFace_ok_inbounds {o : Object F T} {fi : FaceIndex} {f : Face F}
    (h : o.resolveFace fi = .ok f)
    (hv3 : fi.v_idxs.length ≤ 3) (ht3 : fi.t_idxs.length ≤ 3) :
    (∀ i ∈ fi.v_idxs, i < o.vertices.length)
    ∧ (∀ j ∈ fi.t_idxs, j < o.texcoords.length) := by
  unfold Object.resolveFace at h
  split at h
  · cases h
  rename_i i0 hI0
  split at h
  · cases h
  rename_i v0 hV0
  split at h
  · cases h
  rename_i i1 hI1
  split at h
  · cases h
  rename_i v1 hV1
  split at h
  · cases h
  rename_i i2 hI2
  split at h
  · cases h
  rename_i v2 hV2
  split at h
  · cases h
  rename_i j0 hJ0
  split at h
  · cases h
  rename_i t0 hT0
  split at h
  · cases h
  rename_i j1 hJ1
  split at h
  · cases h
  rename_i t1 hT1
  split at h
  · cases h
  rename_i j2 hJ2
  split at h
  · cases h
  rename_i t2 hT2
  have g0 := listIdx_ok hI0
  have g1 := listIdx_ok hI1
  have g2 := listIdx_ok hI2
  have k0 := listIdx_ok hJ0
  have k1 := listIdx_ok hJ1
  have k2 := listIdx_ok hJ2
  have b0 := vertex_ok hV0
  have b1 := vertex_ok hV1
  have b2 := vertex_ok hV2
  have c0 := texcoord_ok hT0
  have c1 := texcoord_ok hT1
  have c2 := texcoord_ok hT2
  have hvlen : fi.v_idxs.length = 3 := by
    have := get?_some_lt g2
    omega
  have htlen : fi.t_idxs.length = 3 := by
    have := get?_some_lt k2
    omega
  obtain ⟨x0, x1, x2, hveq⟩ := List.length_eq_three.mp hvlen
  obtain ⟨y0, y1, y2, hteq⟩ := List.length_eq_three.mp htlen
  rw [hveq] at g0 g1 g2
  rw [hteq] at k0 k1 k2
  simp only [List.get?] at g0 g1 g2 k0 k1 k2
  cases g0
  cases g1
  cases g2
  cases k0
  cases k1
  cases k2
  constructor
  · intro i hi
    rw [hveq] at hi
    simp only [List.mem_cons, List.not_mem_nil, or_false] at hi
    rcases hi with rfl | rfl | rfl <;> assumption
  · intro j hj
    rw [hteq] at hj
    simp only [List.mem_cons, List.not_mem_nil, or_false] at hj
    rcases hj with rfl | rfl | rfl <;> assumption

theorem addCorners3_le3 {c1 c2 c3 : String} {fi : FaceIndex}
    (h : addCorners FaceIndex.new [c1, c2, c3] = .ok fi) :
    fi.v_idxs.length ≤ 3 ∧ fi.t_idxs.length ≤ 3 ∧ fi.n_idxs.length ≤ 3 := by
  obtain ⟨fi1, fi2, h1, h2, h3⟩ := addCorners3_ok h
  obtain ⟨a1, b1, d1⟩ := addCorner_lengths h1
  obtain ⟨a2, b2, d2⟩ := addCorner_lengths h2
  obtain ⟨a3, b3, d3⟩ := addCorner_lengths h3
  set u1 := (if 2 ≤ (splitOnChar '/' c1).length then 1 else 0) with hu1
  set u2 := (if 2 ≤ (splitOnChar '/' c2).length then 1 else 0) with hu2
  set u3 := (if 2 ≤ (splitOnChar '/' c3).length then 1 else 0) with hu3
  set w1 := (if 3 ≤ (splitOnChar '/' c1).length then 1 else 0) with hw1
  set w2 := (if 3 ≤ (splitOnChar '/' c2).length then 1 else 0) with hw2
  set w3 := (if 3 ≤ (splitOnChar '/' c3).length then 1 else 0) with hw3
  have eu1 : u1 ≤ 1 := by rw [hu1]; split <;> omega
  have eu2 : u2 ≤ 1 := by rw [hu2]; split <;> omega
  have eu3 : u3 ≤ 1 := by rw [hu3]; split <;> omega
  have ew1 : w1 ≤ 1 := by rw [hw1]; split <;> omega
  have ew2 : w2 ≤ 1 := by rw [hw2]; split <;> omega
  have ew3 : w3 ≤ 1 := by rw [hw3]; split <;> omega
  have n0 : FaceIndex.new.v_idxs.length = 0 := rfl
  have n1 : FaceIndex.new.t_idxs.length = 0 := rfl
  have n2 : FaceIndex.new.n_idxs.length = 0 := rfl
  refine ⟨by omega, by omega, by omega⟩

/-! ### Claim theorems -/

/-- C10: a face-corner sub-field equal to `0` (a 1-based index of zero) is not
rejected with a `ParseError`; `add_face` succeeds and the 1-based-to-0-based
conversion `0 - 1` underflows the unsigned index, wrapping to `usize::MAX`
(`2^64 - 1`) under the release-build semantics modelled here (a debug build
panics at the same subtraction). -/
theorem face_index_zero_wraps (o : Object F T) (s2 s3 : String) (n2 n3 : Nat)
    (h2 : splitOnChar '/' s2 = [s2]) (h3 : splitOnChar '/' s3 = [s3])
    (hp2 : parseUsize s2 = some n2) (hp3 : parseUsize s3 = some n3) :
    Object.add_face o ["0", s2, s3] =
      ({ o with faces :=
          o.faces ++ [⟨[usizeW - 1, usizeSub1 n2, usizeSub1 n3], [], []⟩] }, none) := by
  have h1 : splitOnChar '/' "0" = ["0"] := by decide
  have hp1 : parseUsize "0" = some 0 := by decide
  have hz : usizeSub1 0 = usizeW - 1 := by decide
  simp [Object.add_face, addCorners, addCorner, parseIdx, h1, h2, h3, hp1, hp2, hp3,
        FaceIndex.new, hz]

/-- Witness for C10 at the face line `f 0 1 1` on an empty object. -/
theorem face_index_zero_wraps_witness :
    Object.add_face (⟨[], [], [], ()⟩ : Object Nat Unit) ["0", "1", "1"] =
      (⟨[], [], [⟨[usizeW - 1, 0, 0], [], []⟩], ()⟩, none) :=
  face_index_zero_wraps ⟨[], [], [], ()⟩ "1" "1" 1 1 (by decide) (by decide)
    (by decide) (by decide)

/-- C7: a well-formed `v x y z` line (exactly three tokens, each parsing as a
scalar) appends the vertex `(x, y, z)` at index `vertices.length`, succeeds,
and leaves every previously stored vertex at its old index (insertion order
preserved). -/
theorem vertex_line_appends (parseF : String → Option F) (o : Object F T)
    (l s1 s2 s3 : String) (x y z : F)
    (htok : tokenize l = ["v", s1, s2, s3])
    (h1 : parseF s1 = some x) (h2 : parseF s2 = some y) (h3 : parseF s3 = some z) :
    Object.parse_line parseF o l = ({ o with vertices := o.vertices ++ [⟨x, y, z⟩] }, none)
    ∧ (o.vertices ++ [(⟨x, y, z⟩ : Vertex F)]).get? o.vertices.length = some ⟨x, y, z⟩
    ∧ ∀ k, k < o.vertices.length →
        (o.vertices ++ [(⟨x, y, z⟩ : Vertex F)]).get? k = o.vertices.get? k := by
  refine ⟨?_, List.get?_concat_length _ _, fun k hk => List.get?_append hk⟩
  simp [Object.parse_line, htok, Object.add_vertex, h1, h2, h3]

/-- Witness for C7 at `v 1 2 3` on an object with one prior vertex. -/
theorem vertex_line_appends_witness :
    Object.parse_line parseUsize (⟨[⟨7, 7, 7⟩], [], [], ()⟩ : Object Nat Unit) "v 1 2 3" =
      ({ vertices := [(⟨7, 7, 7⟩ : Vertex Nat)] ++ [⟨1, 2, 3⟩], texcoords := [], faces := [],
         tex := () }, none)
    ∧ (([⟨7, 7, 7⟩] ++ [⟨1, 2, 3⟩] : List (Vertex Nat))).get? 1 = some ⟨1, 2, 3⟩
    ∧ ∀ k, k < ([(⟨7, 7, 7⟩ : Vertex Nat)]).length →
        (([⟨7, 7, 7⟩] ++ [⟨1, 2, 3⟩] : List (Vertex Nat))).get? k =
        ([⟨7, 7, 7⟩] : List (Vertex Nat)).get? k :=
  vertex_line_appends parseUsize ⟨[⟨7, 7, 7⟩], [], [], ()⟩ "v 1 2 3" "1" "2" "3" 1 2 3
    (by decide) (by decide) (by decide) (by decide)

/-- C8: comment lines (first token `#`), blank lines, `vn` lines, and lines
with an unrecognized first token all succeed without error and leave the
object (all three stores) unchanged. -/
theorem ignored_lines_noop (parseF : String → Option F) (o : Object F T) (l : String)
    (h : tokenize l = [] ∨ ∃ t rest, tokenize l = t :: rest ∧
      (t = "#" ∨ t = "vn" ∨ (t ≠ "#" ∧ t ≠ "f" ∧ t ≠ "v" ∧ t ≠ "vn" ∧ t ≠ "vt"))) :
    Object.parse_line parseF o l = (o, none) := by
  rcases h with h | ⟨t, rest, htok, ht⟩
  · simp [Object.parse_line, h]
  · rcases ht with rfl | rfl | ⟨h1, h2, h3, h4, h5⟩
    · simp [Object.parse_line, htok]
    · simp [Object.parse_line, htok]
    · simp [Object.parse_line, htok, h1, h2, h3, h4, h5]

/-- Witness for C8 at the comment line `# hello`, a `vn` line, and an unknown
directive `mtllib`, on a nonempty object. -/
theorem ignored_lines_noop_witness :
    Object.parse_line parseUsize (⟨[⟨1, 1, 1⟩], [], [], ()⟩ : Object Nat Unit) "# hello" =
      (⟨[⟨1, 1, 1⟩], [], [], ()⟩, none)
    ∧ Object.parse_line parseUsize (⟨[⟨1, 1, 1⟩], [], [], ()⟩ : Object Nat Unit) "vn 0 0 1" =
      (⟨[⟨1, 1, 1⟩], [], [], ()⟩, none)
    ∧ Object.parse_line parseUsize (⟨[⟨1, 1, 1⟩], [], [], ()⟩ : Object Nat Unit)
        "mtllib african_head.mtl" = (⟨[⟨1, 1, 1⟩], [], [], ()⟩, none) :=
  ⟨ignored_lines_noop parseUsize _ _ (Or.inr ⟨"#", ["hello"], by decide, Or.inl rfl⟩),
   ignored_lines_noop parseUsize _ _ (Or.inr ⟨"vn", ["0", "0", "1"], by decide,
     Or.inr (Or.inl rfl)⟩),
   ignored_lines_noop parseUsize _ _ (Or.inr ⟨"mtllib", ["african_head.mtl"], by decide,
     Or.inr (Or.inr (by decide))⟩)⟩

/-- C5: a `v`, `vt` or `f` line whose remaining token count is not 3, and a
`v`/`vt` line containing a token that does not parse as a number, make the
corresponding builder return a parse error with the object — all three
stores — exactly as it was (no partial insertion). -/
theorem malformed_directive_errors (parseF : String → Option F) (o : Object F T)
    (l t : String) (rest : List String)
    (htok : tokenize l = t :: rest)
    (h : ((t = "v" ∨ t = "vt") ∧ (rest.length ≠ 3 ∨ ∃ s ∈ rest, parseF s = none))
       ∨ (t = "f" ∧ rest.length ≠ 3)) :
    ∃ e, Object.parse_line parseF o l = (o, some e) := by
  rcases h with ⟨htv, hbad⟩ | ⟨rfl, hlen⟩
  · rcases htv with rfl | rfl
    · obtain ⟨e, he⟩ := add_vertex_malformed parseF o rest hbad
      exact ⟨e, by simp [Object.parse_line, htok, he]⟩
    · obtain ⟨e, he⟩ := add_texcoord_malformed parseF o rest hbad
      exact ⟨e, by simp [Object.parse_line, htok, he]⟩
  · exact ⟨⟨"Bad vertex line"⟩, by simp [Object.parse_line, htok, add_face_wrong_count o rest hlen]⟩

/-- Witness for C5: the two-token line `v 1.0 2.0`, a three-token vertex line
with an unparsable coordinate, and the four-token face line `f 1 2 3 4`. -/
theorem malformed_directive_errors_witness :
    (∃ e, Object.parse_line parseUsize (⟨[], [], [], ()⟩ : Object Nat Unit) "v 1.0 2.0" =
      (⟨[], [], [], ()⟩, some e))
    ∧ (∃ e, Object.parse_line parseUsize (⟨[], [], [], ()⟩ : Object Nat Unit) "vt 1 x 3" =
      (⟨[], [], [], ()⟩, some e))
    ∧ (∃ e, Object.parse_line parseUsize (⟨[], [], [], ()⟩ : Object Nat Unit) "f 1 2 3 4" =
      (⟨[], [], [], ()⟩, some e)) :=
  ⟨malformed_directive_errors parseUsize _ _ "v" ["1.0", "2.0"] (by decide)
     (Or.inl ⟨Or.inl rfl, Or.inl (by decide)⟩),
   malformed_directive_errors parseUsize _ _ "vt" ["1", "x", "3"] (by decide)
     (Or.inl ⟨Or.inr rfl, Or.inr ⟨"x", by decide, by decide⟩⟩),
   malformed_directive_errors parseUsize _ _ "f" ["1", "2", "3", "4"] (by decide)
     (Or.inr ⟨rfl, by decide⟩)⟩

/-- C4 (code bug): the load loop is supposed to wrap a parse failure with its
1-based line number via `ParseError(format!("{} at line {}", e, line_number))`,
but `impl fmt::Display for ParseError` is `write!(f, "Parse Error: {}", self)`
— it formats `self` with itself, recursing with no base case — so formatting
the error never terminates (stack overflow) and the load aborts instead of
returning any error: whenever a line fails to parse, the loop's result is
`none` (divergence) for every fuel bound, never an error value carrying the
line number. -/
theorem parse_failure_aborts (parseF : String → Option F) (fuel : Nat)
    (o : Object F T) (lineNumber : Nat) (l : String) (ls : List String)
    (e : ParseError) (h : (Object.parse_line parseF o l).2 = some e) :
    readLinesAux parseF fuel o lineNumber (l :: ls) = none := by
  rcases hpl : Object.parse_line parseF o l with ⟨o2, oe⟩
  rw [hpl] at h
  simp only at h
  subst h
  simp [readLinesAux, hpl, displayFuel_eq_none]

/-- Witness for C4: a file whose first line is `v 1.0 2.0` (the spec's own
failure scenario) makes the load loop diverge instead of reporting line 1. -/
theorem parse_failure_aborts_witness :
    (Object.parse_line parseUsize (⟨[], [], [], ()⟩ : Object Nat Unit) "v 1.0 2.0").2 =
      some ⟨"Bad line"⟩
    ∧ readLinesAux parseUsize 9 (⟨[], [], [], ()⟩ : Object Nat Unit) 1 ["v 1.0 2.0"] = none :=
  ⟨by decide,
   parse_failure_aborts parseUsize 9 ⟨[], [], [], ()⟩ 1 "v 1.0 2.0" [] ⟨"Bad line"⟩ (by decide)⟩

/-- Counterexample for C2: the file `v 0 0 0 / vt 0 0 0 / f 6/1 1/1 1/1`
parses successfully into an object whose stored face references vertex index 5
with only one vertex stored, and the iterator's next step panics
(`Panic.indexOutOfBounds`, modelling the unchecked `self.vertices[idx]`)
instead of returning a recoverable error value. -/
theorem oob_lookup_panics_cex :
    readLines parseUsize 0 () ["v 0 0 0", "vt 0 0 0", "f 6/1 1/1 1/1"] =
      some (.ok (⟨[⟨0, 0, 0⟩], [⟨0, 0, 0⟩], [⟨[5, 0, 0], [0, 0, 0], []⟩], ()⟩ : Object Nat Unit))
    ∧ ObjectIter.next
        (Object.iter (⟨[⟨0, 0, 0⟩], [⟨0, 0, 0⟩], [⟨[5, 0, 0], [0, 0, 0], []⟩], ()⟩ :
          Object Nat Unit)) = .error Panic.indexOutOfBounds := by
  constructor
  · decide
  · decide

/-- C2 as amended: when the face under the cursor stores any vertex index at
or beyond the vertex store's length, or any texcoord index at or beyond the
texcoord store's length, `ObjectIter::next` performs an unchecked lookup and
panics (abrupt process failure); the recoverable-error design the spec
recommends is not implemented. The length-at-most-3 hypotheses describe every
`FaceIndex` that `add_face` can store (`addCorners3_le3`): each corner pushes
at most one entry per sequence. -/
theorem oob_lookup_panics (o : Object F T) (k : Nat) (fi : FaceIndex)
    (hface : o.faces.get? k = some fi)
    (hv3 : fi.v_idxs.length ≤ 3) (ht3 : fi.t_idxs.length ≤ 3)
    (hoob : (∃ i ∈ fi.v_idxs, o.vertices.length ≤ i)
          ∨ (∃ j ∈ fi.t_idxs, o.texcoords.length ≤ j)) :
    ObjectIter.next (⟨o, k⟩ : ObjectIter F T) = .error Panic.indexOutOfBounds := by
  rcases hres : o.resolveFace fi with p | f
  · cases p
    have hface2 := hface
    simp only [List.get?_eq_getElem?] at hface2
    simp [ObjectIter.next, hface2, hres, Except.map]
  · exfalso
    obtain ⟨hbv, hbt⟩ := resolveFace_ok_inbounds hres hv3 ht3
    rcases hoob with ⟨i, hi, hoi⟩ | ⟨j, hj, hoj⟩
    · exact absurd (hbv i hi) (by omega)
    · exact absurd (hbt j hj) (by omega)

/-- Witness for C2's amended theorem: a dangling vertex index (the face of
`f 6/1 1/1 1/1` over one vertex) and a dangling texcoord index (the face of
`f 1/9 1/1 1/1` over one texcoord) both panic. -/
theorem oob_lookup_panics_witness :
    ObjectIter.next
      (⟨⟨[⟨0, 0, 0⟩], [⟨0, 0, 0⟩], [⟨[5, 0, 0], [0, 0, 0], []⟩], ()⟩, 0⟩ :
        ObjectIter Nat Unit) = .error Panic.indexOutOfBounds
    ∧ ObjectIter.next
      (⟨⟨[⟨0, 0, 0⟩], [⟨0, 0, 0⟩], [⟨[0, 0, 0], [8, 0, 0], []⟩], ()⟩, 0⟩ :
        ObjectIter Nat Unit) = .error Panic.indexOutOfBounds :=
  ⟨oob_lookup_panics _ 0 ⟨[5, 0, 0], [0, 0, 0], []⟩ (by decide) (by decide) (by decide)
     (Or.inl ⟨5, by decide, by decide⟩),
   oob_lookup_panics _ 0 ⟨[0, 0, 0], [8, 0, 0], []⟩ (by decide) (by decide) (by decide)
     (Or.inr ⟨8, by decide, by decide⟩)⟩

/-- Counterexample for C3: the face `f 1/1/1 1/1 1/1/1` has corners with
differing sub-field counts (3, 2, 3) and parses into a `FaceIndex` whose
normal sequence has length 2 — the equal-length-3 invariant is violated — yet
flattening does NOT read out of bounds: the iterator yields a `Face`, because
`ObjectIter::next` never reads `n_idxs`. The "reads out of bounds" conjunct
of the claim therefore fails for this input. -/
theorem mixed_arity_cex :
    ((splitOnChar '/' "1/1/1").length = 3 ∧ (splitOnChar '/' "1/1").length = 2)
    ∧ Object.add_face (⟨[⟨0, 0, 0⟩], [⟨0, 0, 0⟩], [], ()⟩ : Object Nat Unit)
        ["1/1/1", "1/1", "1/1/1"] =
      (⟨[⟨0, 0, 0⟩], [⟨0, 0, 0⟩], [⟨[0, 0, 0], [0, 0, 0], [0, 0]⟩], ()⟩, none)
    ∧ (⟨[0, 0, 0], [0, 0, 0], [0, 0]⟩ : FaceIndex).n_idxs.length ≠ 3
    ∧ ObjectIter.next
        (⟨⟨[⟨0, 0, 0⟩], [⟨0, 0, 0⟩], [⟨[0, 0, 0], [0, 0, 0], [0, 0]⟩], ()⟩, 0⟩ :
          ObjectIter Nat Unit) =
      .ok (some (⟨[⟨0, 0, 0⟩, ⟨0, 0, 0⟩, ⟨0, 0, 0⟩], [⟨0, 0, 0⟩, ⟨0, 0, 0⟩, ⟨0, 0, 0⟩]⟩,
        ⟨⟨[⟨0, 0, 0⟩], [⟨0, 0, 0⟩], [⟨[0, 0, 0], [0, 0, 0], [0, 0]⟩], ()⟩, 1⟩)) := by
  decide

/-- C3 as amended: a successfully parsed face fills each index sequence only
up to the number of slash sub-fields present per corner (`v_idxs` always gets
3 entries, `t_idxs` one per corner with at least 2 sub-fields, `n_idxs` one
per corner with at least 3), so mixed arities violate the equal-length-3
invariant; and when some corner supplies only a vertex index while another
also supplies a texcoord index (the claim's `v` vs `v/vt` example), the
texcoord sequence is shorter than 3 and the flattening step's
`f_idx.t_idxs[k]` access reads out of bounds — a panic — even with every
stored index within store bounds. (When only the normal counts differ,
flattening succeeds, since `next` never reads `n_idxs`; see the
counterexample.) -/
theorem mixed_arity_underfills (o : Object F T) (c1 c2 c3 : String) (fi : FaceIndex)
    (h : addCorners FaceIndex.new [c1, c2, c3] = .ok fi)
    (hshort : ∃ c ∈ [c1, c2, c3], (splitOnChar '/' c).length = 1)
    (hlong : ∃ c ∈ [c1, c2, c3], 2 ≤ (splitOnChar '/' c).length)
    (hface : o.faces.get? 0 = some fi)
    (hv : ∀ i ∈ fi.v_idxs, i < o.vertices.length)
    (ht : ∀ j ∈ fi.t_idxs, j < o.texcoords.length) :
    fi.v_idxs.length = 3
    ∧ fi.t_idxs.length =
        ((if 2 ≤ (splitOnChar '/' c1).length then 1 else 0) +
         (if 2 ≤ (splitOnChar '/' c2).length then 1 else 0) +
         (if 2 ≤ (splitOnChar '/' c3).length then 1 else 0))
    ∧ fi.n_idxs.length =
        ((if 3 ≤ (splitOnChar '/' c1).length then 1 else 0) +
         (if 3 ≤ (splitOnChar '/' c2).length then 1 else 0) +
         (if 3 ≤ (splitOnChar '/' c3).length then 1 else 0))
    ∧ fi.t_idxs.length < 3
    ∧ ObjectIter.next (⟨o, 0⟩ : ObjectIter F T) = .error Panic.indexOutOfBounds := by
  obtain ⟨fi1, fi2, h1, h2, h3⟩ := addCorners3_ok h
  obtain ⟨hv1, ht1, hn1⟩ := addCorner_lengths h1
  obtain ⟨hv2, ht2, hn2⟩ := addCorner_lengths h2
  obtain ⟨hv3, ht3, hn3⟩ := addCorner_lengths h3
  set a1 := (if 2 ≤ (splitOnChar '/' c1).length then 1 else 0) with ha1
  set a2 := (if 2 ≤ (splitOnChar '/' c2).length then 1 else 0) with ha2
  set a3 := (if 2 ≤ (splitOnChar '/' c3).length then 1 else 0) with ha3
  have hb1 : a1 ≤ 1 := by rw [ha1]; split <;> omega
  have hb2 : a2 ≤ 1 := by rw [ha2]; split <;> omega
  have hb3 : a3 ≤ 1 := by rw [ha3]; split <;> omega
  have hnew0 : FaceIndex.new.v_idxs.length = 0 := rfl
  have hnew1 : FaceIndex.new.t_idxs.length = 0 := rfl
  have hnew2 : FaceIndex.new.n_idxs.length = 0 := rfl
  have hvlen : fi.v_idxs.length = 3 := by omega
  have htlen : fi.t_idxs.length = a1 + a2 + a3 := by omega
  have hzero : a1 = 0 ∨ a2 = 0 ∨ a3 = 0 := by
    obtain ⟨c, hc, hlen1⟩ := hshort
    simp only [List.mem_cons, List.not_mem_nil, or_false] at hc
    rcases hc with rfl | rfl | rfl
    · exact Or.inl (by rw [ha1]; simp [hlen1])
    · exact Or.inr (Or.inl (by rw [ha2]; simp [hlen1]))
    · exact Or.inr (Or.inr (by rw [ha3]; simp [hlen1]))
  have hpos : a1 = 1 ∨ a2 = 1 ∨ a3 = 1 := by
    obtain ⟨c, hc, hlen2⟩ := hlong
    simp only [List.mem_cons, List.not_mem_nil, or_false] at hc
    rcases hc with rfl | rfl | rfl
    · exact Or.inl (by rw [ha1]; simp [hlen2])
    · exact Or.inr (Or.inl (by rw [ha2]; simp [hlen2]))
    · exact Or.inr (Or.inr (by rw [ha3]; simp [hlen2]))
  have htlt : fi.t_idxs.length < 3 := by omega
  have htge : 1 ≤ fi.t_idxs.length := by omega
  refine ⟨hvlen, htlen, by omega, htlt, ?_⟩
  obtain ⟨x0, x1, x2, hveq⟩ := List.length_eq_three.mp hvlen
  have hx0 : x0 < o.vertices.length := hv x0 (by rw [hveq]; simp)
  have hx1 : x1 < o.vertices.length := hv x1 (by rw [hveq]; simp)
  have hx2 : x2 < o.vertices.length := hv x2 (by rw [hveq]; simp)
  have hw0 : o.vertices[x0]? = some o.vertices[x0] := List.getElem?_eq_getElem hx0
  have hw1 : o.vertices[x1]? = some o.vertices[x1] := List.getElem?_eq_getElem hx1
  have hw2 : o.vertices[x2]? = some o.vertices[x2] := List.getElem?_eq_getElem hx2
  have hface2 := hface
  simp only [List.get?_eq_getElem?] at hface2
  have h12 : fi.t_idxs.length = 1 ∨ fi.t_idxs.length = 2 := by omega
  rcases h12 with h1t | h2t
  · obtain ⟨y0, hteq⟩ := List.length_eq_one.mp h1t
    have hy0 : y0 < o.texcoords.length := ht y0 (by rw [hteq]; simp)
    have hu0 : o.texcoords[y0]? = some o.texcoords[y0] := List.getElem?_eq_getElem hy0
    simp [ObjectIter.next, hface2, Object.resolveFace, listIdx, hveq, hteq,
          Object.vertex, Object.texcoord, hw0, hw1, hw2, hu0, Except.map]
  · obtain ⟨y0, y1, hteq⟩ := List.length_eq_two.mp h2t
    have hy0 : y0 < o.texcoords.length := ht y0 (by rw [hteq]; simp)
    have hy1 : y1 < o.texcoords.length := ht y1 (by rw [hteq]; simp)
    have hu0 : o.texcoords[y0]? = some o.texcoords[y0] := List.getElem?_eq_getElem hy0
    have hu1 : o.texcoords[y1]? = some o.texcoords[y1] := List.getElem?_eq_getElem hy1
    simp [ObjectIter.next, hface2, Object.resolveFace, listIdx, hveq, hteq,
          Object.vertex, Object.texcoord, hw0, hw1, hw2, hu0, hu1, Except.map]

/-- Witness for C3's amended theorem at the face `f 2/2 3 4/1` over a store
with four vertices and two texcoords (every stored index in bounds). -/
theorem mixed_arity_underfills_witness :
    (⟨[1, 2, 3], [1, 0], []⟩ : FaceIndex).v_idxs.length = 3
    ∧ (⟨[1, 2, 3], [1, 0], []⟩ : FaceIndex).t_idxs.length =
        ((if 2 ≤ (splitOnChar '/' "2/2").length then 1 else 0) +
         (if 2 ≤ (splitOnChar '/' "3").length then 1 else 0) +
         (if 2 ≤ (splitOnChar '/' "4/1").length then 1 else 0))
    ∧ (⟨[1, 2, 3], [1, 0], []⟩ : FaceIndex).n_idxs.length =
        ((if 3 ≤ (splitOnChar '/' "2/2").length then 1 else 0) +
         (if 3 ≤ (splitOnChar '/' "3").length then 1 else 0) +
         (if 3 ≤ (splitOnChar '/' "4/1").length then 1 else 0))
    ∧ (⟨[1, 2, 3], [1, 0], []⟩ : FaceIndex).t_idxs.length < 3
    ∧ ObjectIter.next
        (⟨⟨[⟨0, 0, 0⟩, ⟨1, 1, 1⟩, ⟨2, 2, 2⟩, ⟨3, 3, 3⟩], [⟨0, 0, 0⟩, ⟨1, 1, 1⟩],
           [⟨[1, 2, 3], [1, 0], []⟩], ()⟩, 0⟩ : ObjectIter Nat Unit) =
      .error Panic.indexOutOfBounds :=
  mixed_arity_underfills _ "2/2" "3" "4/1" _ (by decide)
    ⟨"3", by decide, by decide⟩ ⟨"2/2", by decide, by decide⟩
    (by decide) (by decide) (by decide)

/-- Counterexample for C6: the file `v 0 0 0 / f 2 2 2` loads successfully
with one `f` line parsed, but iterating the loaded object panics at the
dangling vertex reference instead of yielding one `Face`: the iteration does
not yield as many faces as `f` lines parsed. -/
theorem iter_count_cex :
    readLines parseUsize 0 () ["v 0 0 0", "f 2 2 2"] =
      some (.ok (⟨[⟨0, 0, 0⟩], [], [⟨[1, 1, 1], [], []⟩], ()⟩ : Object Nat Unit))
    ∧ (["v 0 0 0", "f 2 2 2"].countP isFaceLine) = 1
    ∧ ObjectIter.drain
        (Object.iter (⟨[⟨0, 0, 0⟩], [], [⟨[1, 1, 1], [], []⟩], ()⟩ : Object Nat Unit)) =
      .error Panic.indexOutOfBounds := by
  refine ⟨by decide, by decide, ?_⟩
  exact drain_panic _ 0 ⟨[1, 1, 1], [], []⟩ Panic.indexOutOfBounds (by decide) (by decide)

/-- C6 as amended: if the parse loop succeeds, the object stores exactly one
`FaceIndex` per `f` line, and — provided every stored face resolves within
bounds — iterating yields exactly that many `Face` values, the `j`-th yielded
face being the resolution of the `j`-th stored face (file order). Without the
resolvability proviso iteration can panic part-way (see the counterexample),
which is the only amendment to the claim. -/
theorem iter_yields_parsed_faces (parseF : String → Option F) (fuel : Nat) (t : T)
    (lines : List String) (o : Object F T)
    (h : readLines parseF fuel t lines = some (.ok o))
    (hres : ∀ fi ∈ o.faces, ∃ f, Object.resolveFace o fi = .ok f) :
    o.faces.length = lines.countP isFaceLine
    ∧ ∃ fs, ObjectIter.drain (Object.iter o) = .ok fs
        ∧ fs.length = o.faces.length
        ∧ ∀ j fi, o.faces.get? j = some fi →
            ∃ f, fs.get? j = some f ∧ Object.resolveFace o fi = .ok f := by
  have hcount := readLinesAux_faces parseF fuel lines ⟨[], [], [], t⟩ o 1 h
  constructor
  · simpa using hcount
  · obtain ⟨fs, hd, hlen, hpt⟩ := drain_total o hres o.faces.length 0 (by omega)
    refine ⟨fs, ?_, by simpa using hlen, fun j fi hj => hpt j fi (by simpa using hj)⟩
    simpa [Object.iter] using hd

/-- Witness for C6's amended theorem at the spec's §8 scenario file. -/
theorem iter_yields_parsed_faces_witness :
    sceneObj.faces.length = sceneLines.countP isFaceLine
    ∧ ∃ fs, ObjectIter.drain (Object.iter sceneObj) = .ok fs
        ∧ fs.length = sceneObj.faces.length
        ∧ ∀ j fi, sceneObj.faces.get? j = some fi →
            ∃ f, fs.get? j = some f ∧ Object.resolveFace sceneObj fi = .ok f :=
  iter_yields_parsed_faces parseUsize 0 () sceneLines sceneObj (by decide)
    (fun fi hfi => by
      simp only [sceneObj, List.mem_singleton] at hfi
      subst hfi
      exact ⟨⟨[⟨0, 0, 0⟩, ⟨1, 0, 0⟩, ⟨0, 1, 0⟩], [⟨0, 0, 0⟩, ⟨1, 0, 0⟩, ⟨0, 1, 0⟩]⟩,
        by decide⟩)

/-- C1: a face line `f i1/j1 i2/j2 i3/j3`, parsed after at least
`max(i1,i2,i3)` vertices and `max(j1,j2,j3)` texcoords have been appended,
appends exactly one `FaceIndex` holding each 1-based file index decremented by
one, and iterating the resulting object from that face's position yields
exactly one resolved `Face` whose `vertices[k]` is the `(i_k - 1)`-th stored
vertex and whose `texcoords[k]` is the `(j_k - 1)`-th stored texcoord. -/
theorem face_line_resolves (parseF : String → Option F) (o : Object F T)
    (l s1 s2 s3 a1 a2 a3 b1 b2 b3 : String) (i1 i2 i3 j1 j2 j3 : Nat)
    (htok : tokenize l = ["f", s1, s2, s3])
    (hs1 : splitOnChar '/' s1 = [a1, b1])
    (hs2 : splitOnChar '/' s2 = [a2, b2])
    (hs3 : splitOnChar '/' s3 = [a3, b3])
    (ha1 : parseUsize a1 = some i1) (ha2 : parseUsize a2 = some i2)
    (ha3 : parseUsize a3 = some i3)
    (hb1 : parseUsize b1 = some j1) (hb2 : parseUsize b2 = some j2)
    (hb3 : parseUsize b3 = some j3)
    (hi1 : 1 ≤ i1) (hi2 : 1 ≤ i2) (hi3 : 1 ≤ i3)
    (hj1 : 1 ≤ j1) (hj2 : 1 ≤ j2) (hj3 : 1 ≤ j3)
    (hiv1 : i1 ≤ o.vertices.length) (hiv2 : i2 ≤ o.vertices.length)
    (hiv3 : i3 ≤ o.vertices.length)
    (hjt1 : j1 ≤ o.texcoords.length) (hjt2 : j2 ≤ o.texcoords.length)
    (hjt3 : j3 ≤ o.texcoords.length) :
    ∃ v1 v2 v3 w1 w2 w3,
      o.vertices.get? (i1 - 1) = some v1 ∧ o.vertices.get? (i2 - 1) = some v2
      ∧ o.vertices.get? (i3 - 1) = some v3
      ∧ o.texcoords.get? (j1 - 1) = some w1 ∧ o.texcoords.get? (j2 - 1) = some w2
      ∧ o.texcoords.get? (j3 - 1) = some w3
      ∧ Object.parse_line parseF o l =
          ({ o with faces :=
              o.faces ++ [⟨[i1 - 1, i2 - 1, i3 - 1], [j1 - 1, j2 - 1, j3 - 1], []⟩] }, none)
      ∧ ObjectIter.drain
          (⟨{ o with faces :=
              o.faces ++ [⟨[i1 - 1, i2 - 1, i3 - 1], [j1 - 1, j2 - 1, j3 - 1], []⟩] },
            o.faces.length⟩ : ObjectIter F T) =
          .ok [⟨[v1, v2, v3], [w1, w2, w3]⟩] := by
  have e1 : usizeSub1 i1 = i1 - 1 := usizeSub1_eq hi1 (parseUsize_lt ha1)
  have e2 : usizeSub1 i2 = i2 - 1 := usizeSub1_eq hi2 (parseUsize_lt ha2)
  have e3 : usizeSub1 i3 = i3 - 1 := usizeSub1_eq hi3 (parseUsize_lt ha3)
  have f1 : usizeSub1 j1 = j1 - 1 := usizeSub1_eq hj1 (parseUsize_lt hb1)
  have f2 : usizeSub1 j2 = j2 - 1 := usizeSub1_eq hj2 (parseUsize_lt hb2)
  have f3 : usizeSub1 j3 = j3 - 1 := usizeSub1_eq hj3 (parseUsize_lt hb3)
  have hlt1 : i1 - 1 < o.vertices.length := by omega
  have hlt2 : i2 - 1 < o.vertices.length := by omega
  have hlt3 : i3 - 1 < o.vertices.length := by omega
  have hmt1 : j1 - 1 < o.texcoords.length := by omega
  have hmt2 : j2 - 1 < o.texcoords.length := by omega
  have hmt3 : j3 - 1 < o.texcoords.length := by omega
  have hv1 : o.vertices[i1 - 1]? = some o.vertices[i1 - 1] := List.getElem?_eq_getElem hlt1
  have hv2 : o.vertices[i2 - 1]? = some o.vertices[i2 - 1] := List.getElem?_eq_getElem hlt2
  have hv3 : o.vertices[i3 - 1]? = some o.vertices[i3 - 1] := List.getElem?_eq_getElem hlt3
  have hw1 : o.texcoords[j1 - 1]? = some o.texcoords[j1 - 1] := List.getElem?_eq_getElem hmt1
  have hw2 : o.texcoords[j2 - 1]? = some o.texcoords[j2 - 1] := List.getElem?_eq_getElem hmt2
  have hw3 : o.texcoords[j3 - 1]? = some o.texcoords[j3 - 1] := List.getElem?_eq_getElem hmt3
  refine ⟨o.vertices[i1 - 1], o.vertices[i2 - 1], o.vertices[i3 - 1],
          o.texcoords[j1 - 1], o.texcoords[j2 - 1], o.texcoords[j3 - 1],
          by rw [List.get?_eq_getElem?]; exact hv1,
          by rw [List.get?_eq_getElem?]; exact hv2,
          by rw [List.get?_eq_getElem?]; exact hv3,
          by rw [List.get?_eq_getElem?]; exact hw1,
          by rw [List.get?_eq_getElem?]; exact hw2,
          by rw [List.get?_eq_getElem?]; exact hw3, ?_, ?_⟩
  · simp [Object.parse_line, htok, Object.add_face, addCorners, addCorner, parseIdx,
          hs1, hs2, hs3, ha1, ha2, ha3, hb1, hb2, hb3, FaceIndex.new, e1, e2, e3, f1, f2, f3]
  · have hk : ({ o with faces :=
        o.faces ++ [⟨[i1 - 1, i2 - 1, i3 - 1], [j1 - 1, j2 - 1, j3 - 1], []⟩] } :
          Object F T).faces.get? o.faces.length =
        some ⟨[i1 - 1, i2 - 1, i3 - 1], [j1 - 1, j2 - 1, j3 - 1], []⟩ :=
      List.get?_concat_length _ _
    have hres : ({ o with faces :=
        o.faces ++ [⟨[i1 - 1, i2 - 1, i3 - 1], [j1 - 1, j2 - 1, j3 - 1], []⟩] } :
          Object F T).resolveFace ⟨[i1 - 1, i2 - 1, i3 - 1], [j1 - 1, j2 - 1, j3 - 1], []⟩ =
        .ok ⟨[o.vertices[i1 - 1], o.vertices[i2 - 1], o.vertices[i3 - 1]],
             [o.texcoords[j1 - 1], o.texcoords[j2 - 1], o.texcoords[j3 - 1]]⟩ := by
      simp [Object.resolveFace, listIdx, Object.vertex, Object.texcoord,
            hv1, hv2, hv3, hw1, hw2, hw3]
    rw [drain_step _ _ _ _ hk hres]
    rw [drain_stop _ _ (List.get?_eq_none.mpr (by simp))]
    rfl

/-- Witness for C1 at the scenario's face line `f 1/1 2/2 3/3` after three
vertices and three texcoords were appended. -/
theorem face_line_resolves_witness :
    ∃ v1 v2 v3 w1 w2 w3,
      preObj.vertices.get? (1 - 1) = some v1 ∧ preObj.vertices.get? (2 - 1) = some v2
      ∧ preObj.vertices.get? (3 - 1) = some v3
      ∧ preObj.texcoords.get? (1 - 1) = some w1 ∧ preObj.texcoords.get? (2 - 1) = some w2
      ∧ preObj.texcoords.get? (3 - 1) = some w3
      ∧ Object.parse_line parseUsize preObj "f 1/1 2/2 3/3" =
          ({ preObj with faces :=
              preObj.faces ++ [⟨[1 - 1, 2 - 1, 3 - 1], [1 - 1, 2 - 1, 3 - 1], []⟩] }, none)
      ∧ ObjectIter.drain
          (⟨{ preObj with faces :=
              preObj.faces ++ [⟨[1 - 1, 2 - 1, 3 - 1], [1 - 1, 2 - 1, 3 - 1], []⟩] },
            preObj.faces.length⟩ : ObjectIter Nat Unit) =
          .ok [⟨[v1, v2, v3], [w1, w2, w3]⟩] :=
  face_line_resolves parseUsize preObj "f 1/1 2/2 3/3" "1/1" "2/2" "3/3" "1" "2" "3"
    "1" "2" "3" 1 2 3 1 2 3 (by decide) (by decide) (by decide) (by decide) (by decide)
    (by decide) (by decide) (by decide) (by decide) (by decide) (by decide) (by decide)
    (by decide) (by decide) (by decide) (by decide) (by decide) (by decide) (by decide)
    (by decide) (by decide) (by decide)


/-- C9: for a source path `dir/stem.ext` (nonempty dot-free stem, dot-free
extension), the load derives the companion texture path `dir/stem_diffuse.tga`
— file stem plus the fixed `_diffuse` suffix, extension replaced by the
texture format's `tga` — and loads it eagerly before any line is parsed: if
the texture load fails, the whole load returns the typed `imagefmtError` with
no `Object`, whatever the source lines contain. -/
theorem read_texture_contract {E : Type} (parseF : String → Option F)
    (textureLoad : FsPath → Except E T) (fuel : Nat)
    (dir : List String) (stem ext : String) (hstem : stem ≠ "")
    (h1 : '.' ∉ stem.toList) (h2 : '.' ∉ ext.toList) :
    texturePath ⟨dir, stem ++ "." ++ ext⟩ = some ⟨dir, stem ++ "_diffuse" ++ "." ++ "tga"⟩
    ∧ ∀ e lines, textureLoad ⟨dir, stem ++ "_diffuse" ++ "." ++ "tga"⟩ = .error e →
        Object.read parseF textureLoad fuel ⟨dir, stem ++ "." ++ ext⟩ lines =
          some (.error (.imagefmtError e)) := by
  have hstem1 := stemOfName_stem_ext stem ext hstem h1 h2
  have hd : '.' ∉ (stem ++ "_diffuse").toList := by
    rw [toList_append]
    intro hmem
    rcases List.mem_append.mp hmem with hm | hm
    · exact h1 hm
    · exact absurd hm (by decide)
  have hne2 : stem ++ "_diffuse" ≠ "" := by
    intro hh
    have := congrArg String.toList hh
    rw [toList_append] at this
    simp at this
  have hstem2 := stemOfName_no_dot (stem ++ "_diffuse") hne2 hd
  have htp : texturePath ⟨dir, stem ++ "." ++ ext⟩ =
      some ⟨dir, stem ++ "_diffuse" ++ "." ++ "tga"⟩ := by
    unfold texturePath
    simp [hstem1, hstem2, FsPath.setFileName, FsPath.setExtension]
  refine ⟨htp, ?_⟩
  intro e lines hload
  unfold Object.read
  simp [htp, hload]

/-- Witness for C9 at the path `obj/african_head.obj` with a texture loader
that always fails. -/
theorem read_texture_contract_witness :
    texturePath ⟨["obj"], "african_head" ++ "." ++ "obj"⟩ =
      some ⟨["obj"], "african_head" ++ "_diffuse" ++ "." ++ "tga"⟩
    ∧ ∀ (e : Unit) (lines : List String),
        (fun (_ : FsPath) => (Except.error () : Except Unit Unit))
            ⟨["obj"], "african_head" ++ "_diffuse" ++ "." ++ "tga"⟩ = .error e →
        Object.read parseUsize (fun _ => (Except.error () : Except Unit Unit)) 0
            ⟨["obj"], "african_head" ++ "." ++ "obj"⟩ lines =
          some (.error (.imagefmtError e)) :=
  read_texture_contract parseUsize (fun _ => Except.error ()) 0 ["obj"] "african_head" "obj"
    (by decide) (by decide) (by decide)

end Wavefront
